import Mathlib

/-!
# Verification of the ghastoolkit CodeQL core

A shallow embedding of the CodeQL core of the `ghastoolkit` repository
(languages, query specifiers, packs, databases, the database handler and the
CLI runner), together with theorems settling the specification claims about
it.  Rust strings are Lean `String`s, `PathBuf`s are path strings, machine
integers are `Nat`, fallible operations return `Except`, and the filesystem
and subprocess boundary is an explicit record of functions passed to the
operations that touch it.
-/

namespace Ghastoolkit

/-! ## String and path helpers mirroring the Rust std operations used -/

/-- Rust `str::split_once(c)` on the underlying character list: splits at the
first occurrence of `d`, returning the parts before and after it. -/
def splitOnceL : List Char → Char → Option (List Char × List Char)
  | [], _ => none
  | c :: cs, d =>
    if c = d then some ([], cs)
    else
      match splitOnceL cs d with
      | some (a, b) => some (c :: a, b)
      | none => none

/-- Rust `str::split_once(c)` lifted to `String`. -/
def splitOnce (s : String) (c : Char) : Option (String × String) :=
  match splitOnceL s.data c with
  | some (a, b) => some (String.mk a, String.mk b)
  | none => none

/-- Rust `str::starts_with(c)` for a single-character pattern. -/
def startsWithChar (s : String) (c : Char) : Bool :=
  match s.data with
  | [] => false
  | a :: _ => a = c

/-- Character membership in a character list (Rust `str::contains(char)`). -/
def containsChar : List Char → Char → Bool
  | [], _ => false
  | a :: as, c => if a = c then true else containsChar as c

/-- Rust `Path::join` / `PathBuf::push` for the relative component names used
in this code base. -/
def joinPath (a b : String) : String :=
  if a = "" then b else a ++ "/" ++ b

/-- Splitting a character list at every occurrence of a separator character
(the semantics of Rust `str::split(char)`). -/
def splitCharsOn : List Char → Char → List (List Char)
  | [], _ => [[]]
  | c :: cs, d =>
    if c = d then [] :: splitCharsOn cs d
    else
      match splitCharsOn cs d with
      | r :: rs => (c :: r) :: rs
      | [] => [[c]]

/-- Rust `Path::file_name`: the last normal component of the path, `none` for
an empty/root path or a path ending in `..`. -/
def pathFileName (s : String) : Option String :=
  let comps :=
    ((splitCharsOn s.data '/').map String.mk).filter
      (fun c => c != "" && c != ".")
  match comps.getLast? with
  | some c => if c = ".." then none else some c
  | none => none

/-- ASCII lower-casing of one character (the alias table below only contains
ASCII tokens, so this coincides with Rust `str::to_lowercase` on them). -/
def charToLower (c : Char) : Char :=
  if 'A' ≤ c ∧ c ≤ 'Z' then Char.ofNat (c.toNat + 32) else c

/-- Rust `str::to_lowercase` restricted to the ASCII range. -/
def strToLower (s : String) : String :=
  String.mk (s.data.map charToLower)

/-- Rust `Path::parent` (approximated for the relative multi-component path
strings used here): everything before the last `/`, `none` for an empty or
root path. -/
def pathParent (s : String) : Option String :=
  if s = "" ∨ s = "/" then none
  else
    match splitOnceL s.data.reverse '/' with
    | some (_, rest) => some (String.mk rest.reverse)
    | none => some ""

/-! ## Errors (src/core/src/errors.rs, the variants the core uses) -/

/-- The `GHASError` variants reachable from the embedded CodeQL core.  Wrapped
foreign errors (`std::io::Error`, `serde_yaml::Error`, `walkdir::Error`,
`glob::PatternError`) are carried as their display strings. -/
inductive GHASError where
  | CodeQLError (msg : String)
  | CodeQLDatabaseError (msg : String)
  | CodeQLPackError (msg : String)
  | IoError (msg : String)
  | YamlError (msg : String)
  | WalkdirError (msg : String)
  | GlobError (msg : String)
  deriving DecidableEq

instance instDecEqExcept {ε α : Type} [DecidableEq ε] [DecidableEq α] :
    DecidableEq (Except ε α) := fun a b =>
  match a, b with
  | .ok x, .ok y =>
    if h : x = y then isTrue (by rw [h])
    else isFalse (by intro hh; cases hh; exact h rfl)
  | .error x, .error y =>
    if h : x = y then isTrue (by rw [h])
    else isFalse (by intro hh; cases hh; exact h rfl)
  | .ok _, .error _ => isFalse (by intro hh; cases hh)
  | .error _, .ok _ => isFalse (by intro hh; cases hh)

/-! ## Languages (src/core/src/codeql/languages.rs) -/

/-- `CodeQLLanguage` (src/core/src/codeql/languages.rs:5-35). -/
inductive CodeQLLanguage where
  | C
  | Cpp
  | CSharp
  | Go
  | Java
  | JavaScript
  | Kotlin
  | Python
  | TypeScript
  | Swift
  | Ruby
  | Secondary (a : String)
  | Custom (a : String)
  | None
  deriving DecidableEq

instance : Inhabited CodeQLLanguage := ⟨CodeQLLanguage.None⟩

/-- `CodeQLLanguage::language` (languages.rs:63-77). -/
def CodeQLLanguage.language : CodeQLLanguage → String
  | .C | .Cpp => "cpp"
  | .CSharp => "csharp"
  | .Go => "go"
  | .Java | .Kotlin => "java"
  | .JavaScript | .TypeScript => "javascript"
  | .Python => "python"
  | .Swift => "swift"
  | .Ruby => "ruby"
  | .Secondary a => a
  | .Custom a => a
  | .None => "none"

/-- `CodeQLLanguage::is_secondary` (languages.rs:80-82). -/
def CodeQLLanguage.is_secondary : CodeQLLanguage → Bool
  | .Secondary _ => true
  | _ => false

/-- `CodeQLLanguage::is_custom` (languages.rs:90-92). -/
def CodeQLLanguage.is_custom : CodeQLLanguage → Bool
  | .Custom _ => true
  | _ => false

/-- `impl From<&str> for CodeQLLanguage` (languages.rs:119-139): the token is
lower-cased and checked against the fixed alias table; the secondary variant
keeps the original (non-lowered) token; anything else becomes `None`. -/
def CodeQLLanguage.fromString (s : String) : CodeQLLanguage :=
  let t := strToLower s
  if t = "c" then .C
  else if t = "cpp" ∨ t = "c++" then .Cpp
  else if t = "csharp" ∨ t = "c#" then .CSharp
  else if t = "go" ∨ t = "golang" then .Go
  else if t = "java" then .Java
  else if t = "kotlin" then .Kotlin
  else if t = "javascript" ∨ t = "js" then .JavaScript
  else if t = "typescript" ∨ t = "ts" then .TypeScript
  else if t = "python" ∨ t = "py" then .Python
  else if t = "swift" then .Swift
  else if t = "ruby" then .Ruby
  else if t = "properties" ∨ t = "csv" ∨ t = "yaml" ∨ t = "xml" ∨ t = "html" then
    .Secondary s
  else .None

/-- All tokens the alias table of `From<&str> for CodeQLLanguage` recognises
(language ids, aliases and secondary-language names, lower-cased). -/
def knownLanguageTokens : List String :=
  ["c", "cpp", "c++", "csharp", "c#", "go", "golang", "java", "kotlin",
   "javascript", "js", "typescript", "ts", "python", "py", "swift", "ruby",
   "properties", "csv", "yaml", "xml", "html"]

/-! ## Query specifiers (src/core/src/codeql/database/queries.rs) -/

/-- Modelled from the spec: `queries.rs` references a `CODEQL_LANGUAGES`
table in `codeql::languages` that is not present in the provided sources.
Per the spec (sections 4.1 and 4.2 and the language list of the registry),
it is the fixed table of known CodeQL language ids (with display names)
used to special-case a bare language token during specifier parsing. -/
def CODEQL_LANGUAGES : List (String × String) :=
  [("c", "C"), ("cpp", "C / C++"), ("csharp", "C#"), ("go", "Go"),
   ("java", "Java"), ("javascript", "JavaScript"), ("kotlin", "Kotlin"),
   ("python", "Python"), ("typescript", "TypeScript"), ("swift", "Swift"),
   ("ruby", "Ruby")]

/-- `CodeQLQueries` (queries.rs:10-15): a `scope/name@range:path` query
specifier.  The `path` component is a `PathBuf` in the source, carried here
as its path string. -/
structure CodeQLQueries where
  scope : Option String
  name : Option String
  range : Option String
  path : Option String
  deriving DecidableEq

instance : Inhabited CodeQLQueries := ⟨⟨none, none, none, none⟩⟩

/-- `CodeQLQueries::language_default` (queries.rs:77-83). -/
def CodeQLQueries.language_default (language : String) : CodeQLQueries :=
  { scope := some "codeql", name := some (language ++ "-queries"),
    range := none, path := none }

/-- `CodeQLQueries::set_path` (queries.rs:109-111). -/
def CodeQLQueries.set_path (q : CodeQLQueries) (p : String) : CodeQLQueries :=
  { q with path := some p }

/-- `CodeQLQueries::parse` (queries.rs:19-74). -/
def CodeQLQueries.parse (value : String) : Except GHASError CodeQLQueries :=
  if value = "" then
    .error (.CodeQLPackError "CodeQLQueries cannot be empty")
  else if startsWithChar value '/' || startsWithChar value '.' then
    .ok { scope := none, name := none, range := none, path := some value }
  else
    match splitOnce value '/' with
    | some (scp, nm) =>
      match splitOnce nm '@' with
      | some (n, rng) =>
        match splitOnce rng ':' with
        | some (r, p) =>
          .ok { scope := some scp, name := some n, range := some r, path := some p }
        | none =>
          .ok { scope := some scp, name := some n, range := some rng, path := none }
      | none =>
        .ok { scope := some scp, name := some nm, range := none, path := none }
    | none =>
      if (CODEQL_LANGUAGES.find? (fun lang => lang.fst == value)).isSome then
        .ok (CodeQLQueries.language_default value)
      else
        .ok { scope := none, name := none, range := none, path := none }

/-- `impl ToString for CodeQLQueries` (queries.rs:114-145): concatenates
`scope`, `/name`, `@range`, `:path`, omitting absent components; a lone path
is rendered bare. -/
def CodeQLQueries.render (q : CodeQLQueries) : String :=
  let query := ""
  let query := match q.scope with
    | some scope => query ++ scope
    | none => query
  let query := match q.name with
    | some name => query ++ "/" ++ name
    | none => query
  let query := match q.range with
    | some range => query ++ "@" ++ range
    | none => query
  match q.path with
  | some path => if query = "" then path else query ++ ":" ++ path
  | none => query

/-- `impl From<&str> for CodeQLQueries` (queries.rs:147-154): parse, falling
back to the all-`None` default value when parsing fails. -/
def CodeQLQueries.fromString (value : String) : CodeQLQueries :=
  match CodeQLQueries.parse value with
  | .ok q => q
  | .error _ => { scope := none, name := none, range := none, path := none }

end Ghastoolkit

namespace Ghastoolkit

/-! ## Claim C4: unknown language tokens -/

/-- C4 counterexample: the claim says an unknown token becomes a `Custom`
language echoing the token; on the code, `From<&str>` maps the unknown token
`"rust"` to the `None` variant (as the module's own tests assert), not to
`Custom "rust"`. -/
theorem language_unknown_token_not_custom :
    CodeQLLanguage.fromString "rust" = CodeQLLanguage.None ∧
      CodeQLLanguage.fromString "rust" ≠ CodeQLLanguage.Custom "rust" := by
  decide

/-- C4 amended: the canonicalization never fails, and every input token that
is not a known language id, alias, or secondary-language name collapses to
the `None` variant (never to `Custom`). -/
theorem language_unknown_token_maps_to_none (s : String)
    (h : strToLower s ∉ knownLanguageTokens) :
    CodeQLLanguage.fromString s = CodeQLLanguage.None := by
  simp only [knownLanguageTokens, List.mem_cons, List.not_mem_nil, or_false] at h
  push_neg at h
  obtain ⟨h1, h2, h3, h4, h5, h6, h7, h8, h9, h10, h11, h12, h13, h14, h15,
    h16, h17, h18, h19, h20, h21, h22⟩ := h
  simp [CodeQLLanguage.fromString, h1, h2, h3, h4, h5, h6, h7, h8, h9, h10,
    h11, h12, h13, h14, h15, h16, h17, h18, h19, h20, h21, h22]

/-- C4 amended, witness: the theorem applied at the concrete unknown token
`"rust"`. -/
theorem language_unknown_token_maps_to_none_witness :
    CodeQLLanguage.fromString "rust" = CodeQLLanguage.None :=
  language_unknown_token_maps_to_none "rust" (by decide)

/-! ## Claim C9: specifier parsing fails exactly on the empty string -/

/-- C9: parsing the empty string fails with the pack error
`"CodeQLQueries cannot be empty"` (the spec's `PackSpecifierError` is the
code's `GHASError::CodeQLPackError`), and parsing any non-empty string
succeeds — every branch of the parser after the emptiness check returns a
value, accepting malformed middle segments verbatim. -/
theorem queries_parse_fails_iff_empty :
    CodeQLQueries.parse "" =
        .error (.CodeQLPackError "CodeQLQueries cannot be empty") ∧
      ∀ s : String, s ≠ "" → ∃ q, CodeQLQueries.parse s = .ok q := by
  refine ⟨rfl, ?_⟩
  intro s hs
  unfold CodeQLQueries.parse
  rw [if_neg hs]
  split
  · exact ⟨_, rfl⟩
  · repeat' split
    all_goals exact ⟨_, rfl⟩

/-- C9 witness: the theorem applied at the non-empty input
`"codeql/python-queries"`. -/
theorem queries_parse_fails_iff_empty_witness :
    ∃ q, CodeQLQueries.parse "codeql/python-queries" = .ok q :=
  queries_parse_fails_iff_empty.2 "codeql/python-queries" (by decide)

/-! ## Claim C3: specifier round-trip -/

/-- C3 counterexample: for the directly constructed specifier with
`range = None` and `path = Some "codeql-suites/python-code-scanning.qls"`,
rendering produces `"codeql/python-queries:codeql-suites/..."`, and re-parsing
that string absorbs the `:path` suffix into the `name` component (the parser
only looks for `:` after an `@`), so `parse (to_string spec) ≠ spec`. -/
theorem queries_roundtrip_counterexample :
    CodeQLQueries.parse
        (CodeQLQueries.render
          { scope := some "codeql", name := some "python-queries",
            range := none,
            path := some "codeql-suites/python-code-scanning.qls" }) ≠
      .ok { scope := some "codeql", name := some "python-queries",
            range := none,
            path := some "codeql-suites/python-code-scanning.qls" } := by
  decide

/-! ### Helper lemmas about the string primitives -/

theorem string_data_inj {s t : String} (h : s.data = t.data) : s = t :=
  congrArg String.mk h

theorem data_append (s t : String) : (s ++ t).data = s.data ++ t.data := rfl

theorem mk_data_eq (l : List Char) : (String.mk l).data = l := rfl

theorem empty_data : ("" : String).data = [] := rfl

theorem slash_data : ("/" : String).data = ['/'] := rfl

theorem at_data : ("@" : String).data = ['@'] := rfl

theorem colon_data : (":" : String).data = [':'] := rfl

theorem splitOnceL_append_cons (xs ys : List Char) (d : Char)
    (h : containsChar xs d = false) :
    splitOnceL (xs ++ d :: ys) d = some (xs, ys) := by
  induction xs with
  | nil => simp [splitOnceL]
  | cons a as ih =>
    by_cases had : a = d
    · simp [containsChar, had] at h
    · simp only [containsChar, if_neg had] at h
      simp [splitOnceL, had, ih h]

theorem splitOnceL_eq_none (xs : List Char) (d : Char)
    (h : containsChar xs d = false) :
    splitOnceL xs d = none := by
  induction xs with
  | nil => rfl
  | cons a as ih =>
    by_cases had : a = d
    · simp [containsChar, had] at h
    · simp only [containsChar, if_neg had] at h
      simp [splitOnceL, had, ih h]

theorem data_ne_nil_of_ne_empty {s : String} (h : s ≠ "") : s.data ≠ [] := by
  intro hd
  exact h (string_data_inj (by rw [hd, empty_data]))

/-! ### The canonical specifier forms and the amended round-trip law -/

/-- The canonical specifier forms for which rendering inverts to parsing: a
pack reference with both `scope` and `name` present whose components are free
of the delimiters the grammar assigns elsewhere (`scope` is non-empty, does
not contain `/` and does not start with `.`; `name` does not contain `@`;
`range` does not contain `:`), with a `path` only permitted alongside a
`range`; or a bare filesystem path starting with `/` or `.`. -/
def CodeQLQueries.canonical (q : CodeQLQueries) : Bool :=
  match q.scope, q.name, q.range, q.path with
  | some scope, some name, range, path =>
    !(scope == "") && !(containsChar scope.data '/') &&
    !(startsWithChar scope '.') &&
    !(containsChar name.data '@') &&
    (match range with
     | some r => !(containsChar r.data ':')
     | none => true) &&
    (match range, path with
     | none, some _ => false
     | _, _ => true)
  | none, none, none, some p => startsWithChar p '/' || startsWithChar p '.'
  | _, _, _, _ => false

/-- Parsing a string of the form `scope/rest` (with a well-formed scope)
always takes the pack branch of the parser and splits off exactly `scope`. -/
theorem parse_scope_split (sc : String) (rest : List Char)
    (hne : sc ≠ "") (hslash : containsChar sc.data '/' = false)
    (hdot : startsWithChar sc '.' = false) :
    CodeQLQueries.parse (String.mk (sc.data ++ '/' :: rest)) =
      (match splitOnceL rest '@' with
       | some (n, rng) =>
         match splitOnceL rng ':' with
         | some (r, p) =>
           .ok { scope := some sc, name := some (String.mk n),
                 range := some (String.mk r), path := some (String.mk p) }
         | none =>
           .ok { scope := some sc, name := some (String.mk n),
                 range := some (String.mk rng), path := none }
       | none =>
         .ok { scope := some sc, name := some (String.mk rest),
               range := none, path := none }) := by
  obtain ⟨c, cs, hdata⟩ : ∃ c cs, sc.data = c :: cs := by
    rcases h' : sc.data with _ | ⟨a, l⟩
    · exact absurd h' (data_ne_nil_of_ne_empty hne)
    · exact ⟨a, l, rfl⟩
  have hc_slash : ¬(c = '/') := by
    intro hcd
    rw [hdata] at hslash
    simp [containsChar, hcd] at hslash
  have hc_dot : ¬(c = '.') := by
    intro hcd
    unfold startsWithChar at hdot
    rw [hdata] at hdot
    simp [hcd] at hdot
  have hcons : sc.data ++ '/' :: rest = c :: (cs ++ '/' :: rest) := by
    rw [hdata]; rfl
  have hvne : String.mk (sc.data ++ '/' :: rest) ≠ "" := by
    intro hc
    have hd := congrArg String.data hc
    rw [mk_data_eq, empty_data, hcons] at hd
    exact List.cons_ne_nil _ _ hd
  have hstart : ∀ d : Char,
      startsWithChar (String.mk (sc.data ++ '/' :: rest)) d = decide (c = d) := by
    intro d
    unfold startsWithChar
    rw [mk_data_eq, hcons]
  have hsplit1 : splitOnce (String.mk (sc.data ++ '/' :: rest)) '/' =
      some (sc, String.mk rest) := by
    unfold splitOnce
    rw [mk_data_eq, splitOnceL_append_cons _ _ _ hslash]
  unfold CodeQLQueries.parse
  rw [if_neg hvne, hstart, hstart]
  rw [if_neg (by simp [hc_slash, hc_dot])]
  rw [hsplit1]
  rcases h2 : splitOnceL rest '@' with _ | ⟨n, rng⟩
  · simp [splitOnce, mk_data_eq, h2]
  · rcases h3 : splitOnceL rng ':' with _ | ⟨r, p⟩
    · simp [splitOnce, mk_data_eq, h2, h3]
    · simp [splitOnce, mk_data_eq, h2, h3]

/-- C3 amended: the round-trip law `parse (to_string spec) = spec` holds for
every specifier produced by `language_default(lang)` for a known language id,
and for every directly constructed specifier in canonical form — in
particular the `range = None, path = Some _` combination exhibited by the
counterexample must be excluded, since rendering then emits `scope/name:path`
but the parser only recognises `:path` after an `@range`. -/
theorem queries_roundtrip_canonical (q : CodeQLQueries)
    (h : q.canonical = true) :
    CodeQLQueries.parse (CodeQLQueries.render q) = .ok q := by
  obtain ⟨scope, name, range, path⟩ := q
  rcases scope with _ | sc
  · -- scope absent: only the bare-path form is canonical
    rcases name with _ | nm
    · rcases range with _ | r
      · rcases path with _ | p
        · simp [CodeQLQueries.canonical] at h
        · -- pure path form, `p` starts with `/` or `.`
          simp only [CodeQLQueries.canonical] at h
          have hrender :
              CodeQLQueries.render ⟨none, none, none, some p⟩ = p := by
            simp [CodeQLQueries.render]
          rw [hrender]
          have hpne : p ≠ "" := by
            intro hc
            rw [hc] at h
            simp [startsWithChar, empty_data] at h
          unfold CodeQLQueries.parse
          rw [if_neg hpne, if_pos h]
      · rcases path <;> simp [CodeQLQueries.canonical] at h
    · rcases range <;> rcases path <;> simp [CodeQLQueries.canonical] at h
  · rcases name with _ | nm
    · rcases range <;> rcases path <;> simp [CodeQLQueries.canonical] at h
    · -- pack form: scope and name both present
      rcases range with _ | r
      · rcases path with _ | p
        · -- scope/name
          simp only [CodeQLQueries.canonical, Bool.and_eq_true,
            Bool.not_eq_true', beq_eq_false_iff_ne, ne_eq, and_true] at h
          obtain ⟨⟨⟨hne, hslash⟩, hdot⟩, hnm⟩ := h
          have hrender : CodeQLQueries.render ⟨some sc, some nm, none, none⟩ =
              String.mk (sc.data ++ '/' :: nm.data) := by
            apply string_data_inj
            simp [CodeQLQueries.render, data_append, empty_data, slash_data,
              mk_data_eq]
          rw [hrender, parse_scope_split sc nm.data hne hslash hdot]
          simp only [splitOnceL_eq_none nm.data '@' hnm]
        · -- range = none, path = some _ is excluded by canonicity
          simp [CodeQLQueries.canonical] at h
      · rcases path with _ | p
        · -- scope/name@range
          simp only [CodeQLQueries.canonical, Bool.and_eq_true,
            Bool.not_eq_true', beq_eq_false_iff_ne, ne_eq, and_true] at h
          obtain ⟨⟨⟨⟨hne, hslash⟩, hdot⟩, hnm⟩, hr⟩ := h
          have hrender : CodeQLQueries.render ⟨some sc, some nm, some r, none⟩ =
              String.mk (sc.data ++ '/' :: (nm.data ++ '@' :: r.data)) := by
            apply string_data_inj
            simp [CodeQLQueries.render, data_append, empty_data, slash_data,
              at_data, mk_data_eq]
          rw [hrender, parse_scope_split sc _ hne hslash hdot]
          simp only [splitOnceL_append_cons nm.data r.data '@' hnm,
            splitOnceL_eq_none r.data ':' hr]
        · -- scope/name@range:path
          simp only [CodeQLQueries.canonical, Bool.and_eq_true,
            Bool.not_eq_true', beq_eq_false_iff_ne, ne_eq, and_true] at h
          obtain ⟨⟨⟨⟨hne, hslash⟩, hdot⟩, hnm⟩, hr⟩ := h
          have hqne :
              ((((("" : String) ++ sc) ++ "/" ++ nm) ++ "@" ++ r)) ≠ "" := by
            intro hc
            have hd := congrArg String.data hc
            simp only [data_append, empty_data, slash_data, at_data,
              List.nil_append, List.append_assoc] at hd
            rcases List.append_eq_nil.mp hd with ⟨-, hfalse⟩
            exact List.cons_ne_nil _ _ hfalse
          have hrender :
              CodeQLQueries.render ⟨some sc, some nm, some r, some p⟩ =
              String.mk
                (sc.data ++ '/' :: (nm.data ++ '@' :: (r.data ++ ':' :: p.data))) := by
            apply string_data_inj
            simp only [CodeQLQueries.render]
            rw [if_neg hqne]
            simp [data_append, empty_data, slash_data, at_data, colon_data,
              mk_data_eq]
          rw [hrender, parse_scope_split sc _ hne hslash hdot]
          simp only
            [splitOnceL_append_cons nm.data (r.data ++ ':' :: p.data) '@' hnm,
            splitOnceL_append_cons r.data p.data ':' hr]

/-- C3 amended, witness: the theorem applied at the fully populated concrete
specifier `codeql/python-queries@0.9.0:codeql-suites/python-code-scanning.qls`. -/
theorem queries_roundtrip_canonical_witness :
    CodeQLQueries.parse
        (CodeQLQueries.render
          { scope := some "codeql", name := some "python-queries",
            range := some "0.9.0",
            path := some "codeql-suites/python-code-scanning.qls" }) =
      .ok { scope := some "codeql", name := some "python-queries",
            range := some "0.9.0",
            path := some "codeql-suites/python-code-scanning.qls" } :=
  queries_roundtrip_canonical _ (by decide)

/-! ## Packs (src/core/src/codeql/packs/pack.rs) -/

/-- `CodeQLPackType` (pack.rs:327-337); the default variant is `Queries`. -/
inductive CodeQLPackType where
  | Library
  | Queries
  | Models
  | Testing
  deriving DecidableEq

instance : Inhabited CodeQLPackType := ⟨CodeQLPackType.Queries⟩

/-- `PackYaml` (pack.rs:352-382), the typed mirror of `qlpack.yml`.  The
`HashMap` fields are carried as association lists. -/
structure PackYaml where
  name : String
  library : Option Bool
  version : Option String
  groups : Option (List String)
  dependencies : Option (List (String × String))
  suites : Option String
  default_suite_file : Option String
  extractor : Option String
  extension_targets : Option (List (String × String))
  data_extensions : Option (List String)
  tests : Option String
  deriving DecidableEq

instance : Inhabited PackYaml :=
  ⟨⟨"", none, none, none, none, none, none, none, none, none, none⟩⟩

/-- `CodeQLPack::get_pack_type` (pack.rs:262-276).  Note the Rust
`if let Some(library) = ...` block: when the `library` key is present the
`else if` chain on `tests`/`dataExtensions` is skipped entirely, so a
manifest with `library: false` falls through to `Queries` no matter what
else it contains. -/
def get_pack_type (pack_yaml : PackYaml) : CodeQLPackType :=
  match pack_yaml.library with
  | some library =>
    if library ∧ pack_yaml.data_extensions.isSome then .Models
    else if library then .Library
    else .Queries
  | none =>
    if pack_yaml.tests.isSome then .Testing
    else if pack_yaml.data_extensions.isSome then .Models
    else .Queries

/-- The pack-type precedence as the amended claim states it: the manifest's
`library` key, when present, decides everything (`true` with data extensions
→ Models, `true` without → Library, `false` → Queries regardless of other
fields); only when `library` is absent do `tests` (→ Testing) and then
`dataExtensions` (→ Models) apply, with Queries as the final default. -/
def packTypePriority (y : PackYaml) : CodeQLPackType :=
  match y.library with
  | some true => if y.data_extensions.isSome then .Models else .Library
  | some false => .Queries
  | none =>
    if y.tests.isSome then .Testing
    else if y.data_extensions.isSome then .Models
    else .Queries

/-! ## Claim C5: pack-type precedence -/

/-- C5 counterexample: a manifest carrying `library: false` together with a
`tests` entry classifies as `Queries`, not `Testing` — the claim's "every
manifest with a tests entry classifies as Testing" fails whenever the
`library` key is explicitly present. -/
theorem pack_type_tests_counterexample :
    get_pack_type
        { name := "test/pack", library := some false, version := none,
          groups := none, dependencies := none, suites := none,
          default_suite_file := none, extractor := none,
          extension_targets := none, data_extensions := none,
          tests := some "tests" } = CodeQLPackType.Queries ∧
      get_pack_type
          { name := "test/pack", library := some false, version := none,
            groups := none, dependencies := none, suites := none,
            default_suite_file := none, extractor := none,
            extension_targets := none, data_extensions := none,
            tests := some "tests" } ≠ CodeQLPackType.Testing := by
  decide

/-- C5 amended: the pack type is decided first by the `library` key when it
is present (true + dataExtensions → Models, true → Library, false → Queries
even with a tests entry), and only for manifests without the key by `tests`
(→ Testing), then `dataExtensions` (→ Models), defaulting to Queries. -/
theorem pack_type_follows_priority (y : PackYaml) :
    get_pack_type y = packTypePriority y := by
  unfold get_pack_type packTypePriority
  rcases y with ⟨name, library, version, groups, deps, suites, dsf, ext, et, de, tests⟩
  rcases library with _ | b
  · rfl
  · rcases b <;> rcases de <;> rfl

/-! ## The CLI runner (src/core/src/codeql/cli.rs) -/

/-- The observable behaviour of one spawned `codeql` child process: the lines
its stdout produced and whether its exit status was a success.  Spawn
failures and a missing stdout handle abort `run` before this classification
and are not modelled. -/
structure ProcessResult where
  stdoutLines : List String
  exitSuccess : Bool
  deriving DecidableEq

/-- `CodeQL::run` (cli.rs:208-257) after the child exits: stdout was read
line by line into a buffer (stderr is inherited, never captured); a
successful status returns the buffered lines joined by newline, any other
status returns `CodeQLError` with the fixed text
`"Error running CodeQL command"`. -/
def CodeQL.runResult (proc : ProcessResult) : Except GHASError String :=
  if proc.exitSuccess then
    .ok (String.intercalate "\n" proc.stdoutLines)
  else
    .error (.CodeQLError "Error running CodeQL command")

/-! ## Claim C7: runner success and failure classification -/

/-- C7 counterexample: for a child that fails after printing `"boom"`, the
error `run` returns carries only the fixed text
`"Error running CodeQL command"` — the buffered stdout (and the streamed
stderr, which is inherited and never captured) is not part of the
diagnostic, contradicting the claim that the `ToolError` carries it. -/
theorem run_failure_fixed_message_counterexample :
    CodeQL.runResult { stdoutLines := ["boom"], exitSuccess := false } =
        .error (.CodeQLError "Error running CodeQL command") ∧
      ¬ ("boom".data <:+: "Error running CodeQL command".data) := by
  constructor
  · rfl
  · decide

/-- C7 amended: a zero exit status yields the buffered stdout lines joined by
newline; any non-zero status yields a `CodeQLError` (the spec's `ToolError`)
with the fixed message `"Error running CodeQL command"`, independent of the
child's output. -/
theorem run_classifies_exit_status (proc : ProcessResult) :
    (proc.exitSuccess = true →
        CodeQL.runResult proc =
          .ok (String.intercalate "\n" proc.stdoutLines)) ∧
      (proc.exitSuccess = false →
        CodeQL.runResult proc =
          .error (.CodeQLError "Error running CodeQL command")) := by
  constructor
  · intro h
    simp [CodeQL.runResult, h]
  · intro h
    simp [CodeQL.runResult, h]

/-- C7 amended, witness: the theorem applied to one succeeding and one
failing concrete child process. -/
theorem run_classifies_exit_status_witness :
    CodeQL.runResult { stdoutLines := ["a", "b"], exitSuccess := true } =
        .ok "a\nb" ∧
      CodeQL.runResult { stdoutLines := ["a"], exitSuccess := false } =
        .error (.CodeQLError "Error running CodeQL command") :=
  ⟨(run_classifies_exit_status ⟨["a", "b"], true⟩).1 rfl,
   (run_classifies_exit_status ⟨["a"], false⟩).2 rfl⟩

/-! ## Databases (src/core/src/codeql/database.rs and database/config.rs) -/

/-- `Repository` (src/core/src/octokit/repository.rs), restricted to the
owner and name components the database code reads (`Repository::owner`,
`Repository::name`). -/
structure Repository where
  owner : String
  name : String
  deriving DecidableEq

/-- `CodeQLDatabaseConfigMetadata` (config.rs): the `chrono` UTC timestamp is
carried as its RFC3339 string. -/
structure CodeQLDatabaseConfigMetadata where
  sha : Option String
  cli_version : String
  creation_time : String
  deriving DecidableEq

/-- `CodeQLDatabaseConfig` (config.rs), the typed mirror of
`codeql-database.yml`.  The `sourceLocationPrefix` field is named
`source_location` here. -/
structure CodeQLDatabaseConfig where
  source_location : Option String
  primary_language : String
  baseline_lines_of_code : Nat
  unicode_newlines : Bool
  column_kind : String
  creation_metadata : Option CodeQLDatabaseConfigMetadata
  build_mode : Option String
  finalised : Bool
  deriving DecidableEq

/-- `CodeQLDatabase` (database.rs:25-37). -/
structure CodeQLDatabase where
  name : String
  path : String
  language : CodeQLLanguage
  source : Option String
  repository : Option Repository
  config : Option CodeQLDatabaseConfig
  deriving DecidableEq

/-- `CodeQLDatabaseBuilder` (database.rs:298-305). -/
structure CodeQLDatabaseBuilder where
  name : String
  path : Option String
  language : CodeQLLanguage
  source : Option String
  repository : Option Repository
  config : Option CodeQLDatabaseConfig
  deriving DecidableEq

/-- `CodeQLDatabase::init` / `CodeQLDatabaseBuilder::default`. -/
def CodeQLDatabaseBuilder.init : CodeQLDatabaseBuilder :=
  { name := "", path := none, language := .None, source := none,
    repository := none, config := none }

/-- `CodeQLDatabaseBuilder::default_path` (database.rs:426-440).  `base`
stands for the environment-dependent `CodeQLDatabases::default_path()`
(`$CODEQL_DATABASES`, or `~/.codeql/databases`, or `/tmp/codeql`). -/
def CodeQLDatabaseBuilder.default_path (b : CodeQLDatabaseBuilder)
    (base : String) : String :=
  match b.repository with
  | some repo =>
    joinPath (joinPath (joinPath base repo.owner) repo.name)
      b.language.language
  | none =>
    if ¬ b.language.is_secondary then
      joinPath base (b.language.language ++ "-" ++ b.name)
    else
      joinPath base b.name

/-- `CodeQLDatabaseBuilder::build` (database.rs:443-479): the path defaults
to `default_path`; an empty name is derived from the repository name, else
from the source's file name, else from the path's file name, falling back to
`"unknown"`. -/
def CodeQLDatabaseBuilder.build (b : CodeQLDatabaseBuilder) (base : String) :
    Except GHASError CodeQLDatabase :=
  let path :=
    match b.path with
    | some p => p
    | none => b.default_path base
  let name :=
    if b.name = "" then
      match b.repository with
      | some repo => repo.name
      | none =>
        match b.source with
        | some source => (pathFileName source).getD "unknown"
        | none => (pathFileName path).getD "unknown"
    else b.name
  .ok { name := name, path := path, language := b.language,
        source := b.source, repository := b.repository, config := b.config }

/-- The name-derivation priority of the amended claim C1, stated in the
(corrected) spec's terms: explicit non-empty name first, else the attached
repository's name, else the source directory's file name, else the last
component of the database path (explicit or defaulted), with `"unknown"`
when that component does not exist. -/
def buildNamePriority (b : CodeQLDatabaseBuilder) (base : String) : String :=
  if b.name ≠ "" then b.name
  else
    match b.repository with
    | some repo => repo.name
    | none =>
      match b.source with
      | some source => (pathFileName source).getD "unknown"
      | none =>
        (pathFileName
          (match b.path with
           | some p => p
           | none => b.default_path base)).getD "unknown"

/-! ## Claim C1: database name derivation in `build()` -/

/-- C1 counterexample: with no explicit name and no repository but both a
path and a source set, `build()` derives the name from the source's file
name (`"srcname"`), not from the path's last component (`"dbname"`) as the
claim requires. -/
theorem build_name_counterexample :
    (CodeQLDatabaseBuilder.build
          { name := "", path := some "/databases/dbname",
            language := .Python, source := some "/src/srcname",
            repository := none, config := none } "/base").map
        CodeQLDatabase.name = .ok "srcname" ∧
      ("srcname" : String) ≠ "dbname" := by
  constructor
  · rfl
  · decide

/-- C1 amended: the name produced by `build()` follows the priority
explicit non-empty name → repository name → source directory's file name →
last component of the database path (the last two exchanged with respect to
the original claim). -/
theorem build_name_follows_priority (b : CodeQLDatabaseBuilder)
    (base : String) :
    (b.build base).map CodeQLDatabase.name = .ok (buildNamePriority b base) := by
  unfold CodeQLDatabaseBuilder.build buildNamePriority
  by_cases h : b.name = "" <;> simp [h] <;> rfl

/-! ## The CLI wrapper state and the database handler
(src/core/src/codeql/cli.rs, src/core/src/codeql/database/handler.rs) -/

/-- `CodeQL` (cli.rs:26-48), restricted to the fields the database handler
reads: the executable path and the extra search paths. -/
structure CodeQL where
  path : String
  search_path : List String
  deriving DecidableEq

/-- `CodeQL::search_paths` (cli.rs:94-100): the search paths joined by `:`. -/
def CodeQL.search_paths (c : CodeQL) : String :=
  String.intercalate ":" c.search_path

/-- `CodeQLDatabaseHandler` (handler.rs:10-33).  The two borrowed references
are carried by value. -/
structure CodeQLDatabaseHandler where
  database : CodeQLDatabase
  codeql : CodeQL
  queries : CodeQLQueries
  threat_models : List String
  model_packs : List String
  category : Option String
  command : Option String
  output : String
  output_format : String
  overwrite : Bool
  summary : Bool
  deriving DecidableEq

/-- `CodeQLDatabaseHandler::default_results` (handler.rs:261-280).
`resultsBase` stands for the environment-dependent
`CodeQLDatabases::default_results()`. -/
def CodeQLDatabaseHandler.default_results (database : CodeQLDatabase)
    (resultsBase : String) : String :=
  match database.repository with
  | some repo =>
    joinPath resultsBase
      (database.language.language ++ "-" ++ repo.owner ++ "-" ++
        repo.name ++ ".sarif")
  | none =>
    joinPath resultsBase
      (database.language.language ++ "-" ++ database.name ++ ".sarif")

/-- `CodeQLDatabaseHandler::new` (handler.rs:37-52). -/
def CodeQLDatabaseHandler.new (database : CodeQLDatabase) (codeql : CodeQL)
    (resultsBase : String) : CodeQLDatabaseHandler :=
  { database := database, codeql := codeql,
    queries := CodeQLQueries.language_default database.language.language,
    threat_models := [], model_packs := [], category := none,
    command := none,
    output := CodeQLDatabaseHandler.default_results database resultsBase,
    output_format := "sarif-latest", overwrite := false, summary := true }

/-- `CodeQLDatabaseHandler::suite` (handler.rs:92-131): the five literal
suite names are rewritten to the language's default pack with the matching
`codeql-suites/<language>-<suite>.qls` path (`default` and `code-scanning`
share the code-scanning suite file); anything else is handed to
`CodeQLQueries::from`. -/
def CodeQLDatabaseHandler.suite (h : CodeQLDatabaseHandler)
    (queries : String) : CodeQLDatabaseHandler :=
  let lang := h.database.language.language
  let q :=
    if queries = "security-extended" then
      (CodeQLQueries.language_default lang).set_path
        ("codeql-suites/" ++ lang ++ "-security-extended.qls")
    else if queries = "security-and-quality" then
      (CodeQLQueries.language_default lang).set_path
        ("codeql-suites/" ++ lang ++ "-security-and-quality.qls")
    else if queries = "experimental" then
      (CodeQLQueries.language_default lang).set_path
        ("codeql-suites/" ++ lang ++ "-experimental.qls")
    else if queries = "default" ∨ queries = "code-scanning" then
      (CodeQLQueries.language_default lang).set_path
        ("codeql-suites/" ++ lang ++ "-code-scanning.qls")
    else
      CodeQLQueries.fromString queries
  { h with queries := q }

/-- `CodeQLDatabaseHandler::create_cmd` (handler.rs:208-259): `-l` is always
emitted from the database's language; a missing source root aborts with
`CodeQLDatabaseError "No source root provided"`; the remaining options are
appended when non-empty/set, and the database path comes last. -/
def CodeQLDatabaseHandler.create_cmd (h : CodeQLDatabaseHandler) :
    Except GHASError (List String) :=
  let args := ["database", "create"]
  let args := args ++ ["-l", h.database.language.language]
  match h.database.source with
  | none => .error (.CodeQLDatabaseError "No source root provided")
  | some source =>
    let args := args ++ ["-s", source]
    let tms := String.intercalate "," h.threat_models
    let args := if tms ≠ "" then args ++ ["--threat-models", tms] else args
    let mps := String.intercalate "," h.model_packs
    let args := if mps ≠ "" then args ++ ["--model-packs", mps] else args
    let sps := h.codeql.search_paths
    let args := if sps ≠ "" then args ++ ["--search-path", sps] else args
    let args := if h.overwrite then args ++ ["--overwrite"] else args
    let args :=
      if h.summary then
        args ++ ["--print-diagnostics-summary", "--print-metrics-summary"]
      else args
    let args :=
      match h.category with
      | some c => args ++ ["--sarif-category", c]
      | none => args
    .ok (args ++ [h.database.path])

/-- The side effects `create()` performs, in order. -/
inductive CreateEffect where
  | createDirAll (path : String)
  | runCodeQL (args : List String)
  deriving DecidableEq

/-- `CodeQLDatabaseHandler::create` (handler.rs:192-206): the argument vector
is built first; only afterwards is the database directory created (when it
does not yet exist, per `pathExists`) and the `codeql` subprocess run.  The
returned effect list records the side effects attempted, in order; an error
from `create_cmd` therefore causes no effect at all. -/
def CodeQLDatabaseHandler.create (h : CodeQLDatabaseHandler)
    (pathExists : Bool) : Except GHASError (List CreateEffect) :=
  match h.create_cmd with
  | .error e => .error e
  | .ok args =>
    let fx := if ¬ pathExists then [CreateEffect.createDirAll h.database.path] else []
    .ok (fx ++ [CreateEffect.runCodeQL args])

/-! ## Claim C2: preconditions of `create()` -/

/-- C2 counterexample: a database whose language is the `None` variant but
whose source is set does not make `create()` fail — no "No language
provided" check exists in the code, and the command is built with
`-l none` and executed. -/
theorem create_no_language_check_counterexample :
    CodeQLDatabaseHandler.create
        (CodeQLDatabaseHandler.new
          { name := "test", path := "/db", language := .None,
            source := some "/src", repository := none, config := none }
          { path := "", search_path := [] } "/results") false =
      .ok [CreateEffect.createDirAll "/db",
           CreateEffect.runCodeQL
             ["database", "create", "-l", "none", "-s", "/src",
              "--print-diagnostics-summary", "--print-metrics-summary",
              "/db"]] := by
  rfl

/-- C2 amended: `create()` fails with `CodeQLDatabaseError
"No source root provided"` when the database's source is unset, and the
error is raised before any filesystem side effect or subprocess invocation
(the effect list of the model is empty on error); when a source is set,
`create()` never fails at this stage — in particular there is no
"No language provided" error for the `None` language. -/
theorem create_requires_source (h : CodeQLDatabaseHandler) (pe : Bool) :
    (h.database.source = none →
        h.create pe =
          .error (.CodeQLDatabaseError "No source root provided")) ∧
      (∀ src, h.database.source = some src → ∃ fx, h.create pe = .ok fx) := by
  constructor
  · intro hs
    unfold CodeQLDatabaseHandler.create CodeQLDatabaseHandler.create_cmd
    rw [hs]
  · intro src hs
    unfold CodeQLDatabaseHandler.create CodeQLDatabaseHandler.create_cmd
    rw [hs]
    exact ⟨_, rfl⟩

/-- C2 amended, witness: the theorem applied to one handler without a source
(which errors) and one with a source (which builds the command). -/
theorem create_requires_source_witness :
    CodeQLDatabaseHandler.create
        (CodeQLDatabaseHandler.new
          { name := "test", path := "/db", language := .JavaScript,
            source := none, repository := none, config := none }
          { path := "", search_path := [] } "/results") false =
        .error (.CodeQLDatabaseError "No source root provided") ∧
      ∃ fx,
        CodeQLDatabaseHandler.create
            (CodeQLDatabaseHandler.new
              { name := "test", path := "/db", language := .JavaScript,
                source := some "/src", repository := none, config := none }
              { path := "", search_path := [] } "/results") false = .ok fx :=
  ⟨(create_requires_source _ false).1 rfl,
   (create_requires_source _ false).2 "/src" rfl⟩

/-! ## Claim C8: named-suite shorthand -/

theorem str_append_assoc (a b c : String) : a ++ b ++ c = a ++ (b ++ c) :=
  string_data_inj (by simp [data_append])

theorem codeql_data :
    ("codeql" : String).data = ['c', 'o', 'd', 'e', 'q', 'l'] := rfl

theorem codeql_slash_data :
    ("codeql/" : String).data = ['c', 'o', 'd', 'e', 'q', 'l', '/'] := rfl

theorem queries_suffix_data :
    ("-queries" : String).data =
      ['-', 'q', 'u', 'e', 'r', 'i', 'e', 's'] := rfl

theorem queries_colon_data :
    ("-queries:" : String).data =
      ['-', 'q', 'u', 'e', 'r', 'i', 'e', 's', ':'] := rfl

/-- Rendering a language-default pack with a suite path set gives
`codeql/<language>-queries:<path>`. -/
theorem render_language_default_with_path (L P : String) :
    ((CodeQLQueries.language_default L).set_path P).render =
      "codeql/" ++ L ++ "-queries:" ++ P := by
  have hq : ((("" : String) ++ "codeql") ++ "/" ++ (L ++ "-queries")) ≠ "" := by
    intro hc
    have hd := congrArg String.data hc
    simp [data_append, empty_data, codeql_data, slash_data] at hd
  have hred : ((CodeQLQueries.language_default L).set_path P).render =
      if ((("" : String) ++ "codeql") ++ "/" ++ (L ++ "-queries")) = "" then P
      else ((("" : String) ++ "codeql") ++ "/" ++ (L ++ "-queries")) ++ ":" ++ P :=
    rfl
  rw [hred, if_neg hq]
  apply string_data_inj
  simp [data_append, empty_data, codeql_data, codeql_slash_data, slash_data,
    colon_data, queries_suffix_data, queries_colon_data]

/-- C8: for every handler (with its database's primary language rendered as
`L`), each of the five literal suite names rewrites the handler's queries to
the language-default pack with the matching suite file — rendering to
`codeql/<L>-queries:codeql-suites/<L>-<suite>.qls`, with `default` and
`code-scanning` both selecting the code-scanning suite file — and every
other string is handed verbatim to the `CodeQLQueries` string conversion. -/
theorem suite_shorthand (h : CodeQLDatabaseHandler) :
    ((h.suite "security-extended").queries.render =
        "codeql/" ++ h.database.language.language ++
          "-queries:codeql-suites/" ++ h.database.language.language ++
          "-security-extended.qls") ∧
      ((h.suite "security-and-quality").queries.render =
        "codeql/" ++ h.database.language.language ++
          "-queries:codeql-suites/" ++ h.database.language.language ++
          "-security-and-quality.qls") ∧
      ((h.suite "experimental").queries.render =
        "codeql/" ++ h.database.language.language ++
          "-queries:codeql-suites/" ++ h.database.language.language ++
          "-experimental.qls") ∧
      ((h.suite "default").queries.render =
        "codeql/" ++ h.database.language.language ++
          "-queries:codeql-suites/" ++ h.database.language.language ++
          "-code-scanning.qls") ∧
      ((h.suite "code-scanning").queries.render =
        "codeql/" ++ h.database.language.language ++
          "-queries:codeql-suites/" ++ h.database.language.language ++
          "-code-scanning.qls") ∧
      ∀ s : String,
        s ∉ ["security-extended", "security-and-quality", "experimental",
             "default", "code-scanning"] →
          (h.suite s).queries = CodeQLQueries.fromString s := by
  have hmid : ("-queries:codeql-suites/" : String) =
      "-queries:" ++ "codeql-suites/" := by decide
  refine ⟨?_, ?_, ?_, ?_, ?_, ?_⟩
  · rw [show (h.suite "security-extended").queries =
        (CodeQLQueries.language_default h.database.language.language).set_path
          ("codeql-suites/" ++ h.database.language.language ++
            "-security-extended.qls") from rfl,
      render_language_default_with_path]
    simp only [str_append_assoc]
    rw [hmid, str_append_assoc]
  · rw [show (h.suite "security-and-quality").queries =
        (CodeQLQueries.language_default h.database.language.language).set_path
          ("codeql-suites/" ++ h.database.language.language ++
            "-security-and-quality.qls") from rfl,
      render_language_default_with_path]
    simp only [str_append_assoc]
    rw [hmid, str_append_assoc]
  · rw [show (h.suite "experimental").queries =
        (CodeQLQueries.language_default h.database.language.language).set_path
          ("codeql-suites/" ++ h.database.language.language ++
            "-experimental.qls") from rfl,
      render_language_default_with_path]
    simp only [str_append_assoc]
    rw [hmid, str_append_assoc]
  · rw [show (h.suite "default").queries =
        (CodeQLQueries.language_default h.database.language.language).set_path
          ("codeql-suites/" ++ h.database.language.language ++
            "-code-scanning.qls") from rfl,
      render_language_default_with_path]
    simp only [str_append_assoc]
    rw [hmid, str_append_assoc]
  · rw [show (h.suite "code-scanning").queries =
        (CodeQLQueries.language_default h.database.language.language).set_path
          ("codeql-suites/" ++ h.database.language.language ++
            "-code-scanning.qls") from rfl,
      render_language_default_with_path]
    simp only [str_append_assoc]
    rw [hmid, str_append_assoc]
  · intro s hs
    simp only [List.mem_cons, List.not_mem_nil, or_false, not_or] at hs
    obtain ⟨n1, n2, n3, n4, n5⟩ := hs
    simp [CodeQLDatabaseHandler.suite, n1, n2, n3, n4, n5]

/-- C8 witness: the theorem applied at the concrete JavaScript database of
the spec's end-to-end scenario, rendering the `security-extended` shorthand
and parsing an arbitrary pack specifier verbatim. -/
theorem suite_shorthand_witness :
    ((CodeQLDatabaseHandler.new
          { name := "test", path := "/db", language := .JavaScript,
            source := some "/src", repository := none, config := none }
          { path := "", search_path := [] } "/results").suite
        "security-extended").queries.render =
      "codeql/javascript-queries:codeql-suites/javascript-security-extended.qls" := by
  have hgen := (suite_shorthand
    (CodeQLDatabaseHandler.new
      { name := "test", path := "/db", language := .JavaScript,
        source := some "/src", repository := none, config := none }
      { path := "", search_path := [] } "/results")).1
  rw [hgen]
  decide

/-! ## The filesystem boundary -/

/-- `PackYamlLockDependency` (pack.rs:398-401). -/
structure PackYamlLockDependency where
  version : String
  deriving DecidableEq

/-- `PackYamlLock` (pack.rs:385-394), the typed mirror of
`codeql-pack.lock.yml`. -/
structure PackYamlLock where
  lock_version : String
  dependencies : List (String × PackYamlLockDependency)
  compiled : Bool
  deriving DecidableEq

/-- The filesystem and directory-walking operations the embedded code
performs, one field per `std::fs`/`walkdir`/`glob`/`serde_yaml` call site:
`pathExists`/`isFile`/`isDir` are the `Path` queries; `readQlpack` and
`readDbConfig` are open-plus-parse of the YAML file at the exact path (the
error carries the `IoError`/`YamlError` the Rust `?` would propagate);
`readPackLock` distinguishes an unopenable lock file (`none`, tolerated)
from a malformed one (`some (error _)`); `glob` returns the last `Ok` entry
of `glob::glob` (its error is a pattern error); `walkFind` is the result of
the `walkdir` loop searching for `codeql-database.yml` (an entry error, or
the found path, or `""` when nothing was found — the loop's initial empty
`PathBuf`). -/
structure FileSystem where
  pathExists : String → Bool
  isFile : String → Bool
  isDir : String → Bool
  readQlpack : String → Except GHASError PackYaml
  readPackLock : String → Option (Except GHASError PackYamlLock)
  glob : String → Except GHASError (Option String)
  readDbConfig : String → Except GHASError CodeQLDatabaseConfig
  walkFind : String → Except GHASError String

/-! ## Pack loading and resolution (src/core/src/codeql/packs/pack.rs) -/

/-- `CodeQLPack` (pack.rs:9-25). -/
structure CodeQLPack where
  name : String
  «namespace» : String
  version : Option String
  path : String
  pack : Option PackYaml
  pack_type : Option CodeQLPackType
  pack_lock : Option PackYamlLock
  deriving DecidableEq

/-- `CodeQLPack::load` (pack.rs:169-214): requires the path to exist and a
`qlpack.yml` under it (popping a file path to its directory first), parses
the manifest, derives the pack type, reads the optional lock file, and
splits the manifest's `name` on `/` into namespace and name
(`unwrap_or_default` yields two empty strings when there is no `/`). -/
def CodeQLPack.load (fs : FileSystem) (path0 : String) :
    Except GHASError CodeQLPack :=
  if ¬ fs.pathExists path0 then .error (.CodeQLPackError path0)
  else
    let path := if fs.isFile path0 then (pathParent path0).getD path0 else path0
    let qlpack_path := joinPath path "qlpack.yml"
    let qlpack_lock_path := joinPath path "codeql-pack.lock.yml"
    if ¬ fs.pathExists qlpack_path then
      .error (.CodeQLPackError "qlpack.yml file does not exist")
    else
      match fs.readQlpack qlpack_path with
      | .error e => .error e
      | .ok pack =>
        let pack_type := get_pack_type pack
        let lockRes : Except GHASError (Option PackYamlLock) :=
          match fs.readPackLock qlpack_lock_path with
          | some (.ok p) => .ok (some p)
          | some (.error e) => .error e
          | none => .ok none
        match lockRes with
        | .error e => .error e
        | .ok pack_lock =>
          let pr := (splitOnce pack.name '/').getD ("", "")
          .ok { name := pr.2, «namespace» := pr.1, version := pack.version,
                path := path, pack := some pack,
                pack_type := some pack_type, pack_lock := pack_lock }

/-- `CodeQLPack::load_package` (pack.rs:217-259): builds
`<packagesPath>/<namespace>/<name>/<version-or-**>`, loads it when a
`qlpack.yml` sits there, otherwise globs for the newest matching entry, and
otherwise returns a reference-only pack (specifier data, no manifest) —
never an error for a missing cache entry.  `packagesPath` stands for the
home-relative `CodeQLPacks::codeql_packages_path()`. -/
def CodeQLPack.load_package (fs : FileSystem) (packagesPath : String)
    (name nspace : String) (version : Option String) :
    Except GHASError CodeQLPack :=
  let version_num := version.getD "**"
  let path := joinPath (joinPath (joinPath packagesPath nspace) name) version_num
  if fs.pathExists (joinPath path "qlpack.yml") then CodeQLPack.load fs path
  else
    match fs.glob path with
    | .error e => .error e
    | .ok (some entry) =>
      if fs.pathExists entry then CodeQLPack.load fs entry
      else
        .ok { name := name, «namespace» := nspace, version := version,
              path := path, pack := none, pack_type := none, pack_lock := none }
    | .ok none =>
      .ok { name := name, «namespace» := nspace, version := version,
            path := path, pack := none, pack_type := none, pack_lock := none }

/-- `impl TryFrom<&str> for CodeQLPack` (pack.rs:289-307): an existing path
is loaded directly; otherwise the specifier is split into
`namespace/name[@version]` and looked up in the package cache. -/
def CodeQLPack.try_from (fs : FileSystem) (packagesPath : String)
    (value : String) : Except GHASError CodeQLPack :=
  if fs.pathExists value then CodeQLPack.load fs value
  else
    let pr := (splitOnce value '/').getD ("", "")
    match splitOnce pr.2 '@' with
    | some (nm, ver) =>
      CodeQLPack.load_package fs packagesPath nm pr.1 (some ver)
    | none => CodeQLPack.load_package fs packagesPath pr.2 pr.1 none

/-! ## Claim C6: resolution fallback ordering -/

/-- C6: resolution tries sources in order with first match winning, for a
specifier `ns/rest` that is not an existing filesystem path.  With an
explicit version (`rest = nm@ver`), the cache directory
`<packagesPath>/<ns>/<nm>/<ver>` is consulted directly: a readable
`qlpack.yml` there yields the cache-sourced pack with its manifest
populated, and a miss (no manifest, no glob match) yields a reference-only
pack.  Without a version, the `"**"` glob pattern
`<packagesPath>/<ns>/<rest>/**` is consulted (pack.rs:240-249): a glob
entry holding a readable `qlpack.yml` yields the cache-sourced pack with
its manifest populated, and no glob match yields a reference-only pack.
In both miss cases resolution succeeds rather than erroring. -/
theorem pack_resolution_fallback (fs : FileSystem)
    (packagesPath value ns rest : String) (y : PackYaml)
    (h1 : fs.pathExists value = false)
    (h2 : splitOnce value '/' = some (ns, rest)) :
    (∀ nm ver : String, splitOnce rest '@' = some (nm, ver) →
      (fs.pathExists
            (joinPath (joinPath (joinPath (joinPath packagesPath ns) nm) ver)
              "qlpack.yml") = true →
          fs.pathExists
              (joinPath (joinPath (joinPath packagesPath ns) nm) ver) =
            true →
          fs.isFile (joinPath (joinPath (joinPath packagesPath ns) nm) ver) =
            false →
          fs.readQlpack
              (joinPath (joinPath (joinPath (joinPath packagesPath ns) nm)
                  ver)
                "qlpack.yml") = .ok y →
          fs.readPackLock
              (joinPath (joinPath (joinPath (joinPath packagesPath ns) nm)
                  ver)
                "codeql-pack.lock.yml") = none →
          CodeQLPack.try_from fs packagesPath value =
            .ok { name := ((splitOnce y.name '/').getD ("", "")).2,
                  «namespace» := ((splitOnce y.name '/').getD ("", "")).1,
                  version := y.version,
                  path := joinPath (joinPath (joinPath packagesPath ns) nm)
                    ver,
                  pack := some y, pack_type := some (get_pack_type y),
                  pack_lock := none }) ∧
        (fs.pathExists
              (joinPath (joinPath (joinPath (joinPath packagesPath ns) nm)
                  ver)
                "qlpack.yml") = false →
          fs.glob (joinPath (joinPath (joinPath packagesPath ns) nm) ver) =
            .ok none →
          CodeQLPack.try_from fs packagesPath value =
            .ok { name := nm, «namespace» := ns, version := some ver,
                  path := joinPath (joinPath (joinPath packagesPath ns) nm)
                    ver,
                  pack := none, pack_type := none, pack_lock := none })) ∧
      (splitOnce rest '@' = none →
        (∀ entry : String,
          fs.pathExists
              (joinPath
                (joinPath (joinPath (joinPath packagesPath ns) rest) "**")
                "qlpack.yml") = false →
          fs.glob (joinPath (joinPath (joinPath packagesPath ns) rest) "**") =
            .ok (some entry) →
          fs.pathExists entry = true →
          fs.isFile entry = false →
          fs.pathExists (joinPath entry "qlpack.yml") = true →
          fs.readQlpack (joinPath entry "qlpack.yml") = .ok y →
          fs.readPackLock (joinPath entry "codeql-pack.lock.yml") = none →
          CodeQLPack.try_from fs packagesPath value =
            .ok { name := ((splitOnce y.name '/').getD ("", "")).2,
                  «namespace» := ((splitOnce y.name '/').getD ("", "")).1,
                  version := y.version, path := entry,
                  pack := some y, pack_type := some (get_pack_type y),
                  pack_lock := none }) ∧
        (fs.pathExists
              (joinPath
                (joinPath (joinPath (joinPath packagesPath ns) rest) "**")
                "qlpack.yml") = false →
          fs.glob (joinPath (joinPath (joinPath packagesPath ns) rest) "**") =
            .ok none →
          CodeQLPack.try_from fs packagesPath value =
            .ok { name := rest, «namespace» := ns, version := none,
                  path := joinPath (joinPath (joinPath packagesPath ns) rest)
                    "**",
                  pack := none, pack_type := none, pack_lock := none })) := by
  constructor
  · intro nm ver h3
    constructor
    · intro h4 h5 h6 h7 h8
      simp [CodeQLPack.try_from, CodeQLPack.load_package, CodeQLPack.load,
        h1, h2, h3, h4, h5, h6, h7, h8]
    · intro h4 h5
      simp [CodeQLPack.try_from, CodeQLPack.load_package, h1, h2, h3, h4, h5]
  · intro h3
    constructor
    · intro entry h4 h5 h6 h7 h8 h9 h10
      simp [CodeQLPack.try_from, CodeQLPack.load_package, CodeQLPack.load,
        h1, h2, h3, h4, h5, h6, h7, h8, h9, h10]
    · intro h4 h5
      simp [CodeQLPack.try_from, CodeQLPack.load_package, h1, h2, h3, h4, h5]

/-- A concrete filesystem whose package cache holds exactly one manifest, at
`/base/codeql/python-queries/1.0.0/qlpack.yml`. -/
def fsCacheHit : FileSystem :=
  { pathExists := fun p =>
      p == "/base/codeql/python-queries/1.0.0/qlpack.yml" ||
        p == "/base/codeql/python-queries/1.0.0",
    isFile := fun _ => false,
    isDir := fun _ => false,
    readQlpack := fun p =>
      if p == "/base/codeql/python-queries/1.0.0/qlpack.yml" then
        .ok { name := "codeql/python-queries", library := none,
              version := some "1.0.0", groups := none, dependencies := none,
              suites := none, default_suite_file := none, extractor := none,
              extension_targets := none, data_extensions := none,
              tests := none }
      else .error (.IoError "No such file"),
    readPackLock := fun _ => none,
    glob := fun _ => .ok none,
    readDbConfig := fun _ => .error (.IoError "No such file"),
    walkFind := fun _ => .ok "" }

/-- A concrete filesystem whose package cache holds one versioned manifest
directory, reachable only through the `"**"` glob pattern. -/
def fsCacheHitGlob : FileSystem :=
  { pathExists := fun p =>
      p == "/base/codeql/python-queries/2.0.0" ||
        p == "/base/codeql/python-queries/2.0.0/qlpack.yml",
    isFile := fun _ => false,
    isDir := fun _ => false,
    readQlpack := fun p =>
      if p == "/base/codeql/python-queries/2.0.0/qlpack.yml" then
        .ok { name := "codeql/python-queries", library := none,
              version := some "2.0.0", groups := none, dependencies := none,
              suites := none, default_suite_file := none, extractor := none,
              extension_targets := none, data_extensions := none,
              tests := none }
      else .error (.IoError "No such file"),
    readPackLock := fun _ => none,
    glob := fun p =>
      if p == "/base/codeql/python-queries/**" then
        .ok (some "/base/codeql/python-queries/2.0.0")
      else .ok none,
    readDbConfig := fun _ => .error (.IoError "No such file"),
    walkFind := fun _ => .ok "" }

/-- A concrete filesystem with nothing on disk at all. -/
def fsAllMissing : FileSystem :=
  { pathExists := fun _ => false,
    isFile := fun _ => false,
    isDir := fun _ => false,
    readQlpack := fun _ => .error (.IoError "No such file"),
    readPackLock := fun _ => none,
    glob := fun _ => .ok none,
    readDbConfig := fun _ => .error (.IoError "No such file"),
    walkFind := fun _ => .ok "" }

/-- C6 witness: the theorem applied to a concrete versioned cache hit, a
versioned total miss, an unversioned cache hit found through the `"**"`
glob, and an unversioned total miss — the hits return the manifest, the
misses return reference-only packs, never an error. -/
theorem pack_resolution_fallback_witness :
    CodeQLPack.try_from fsCacheHit "/base" "codeql/python-queries@1.0.0" =
        .ok { name := "python-queries", «namespace» := "codeql",
              version := some "1.0.0",
              path := "/base/codeql/python-queries/1.0.0",
              pack := some
                { name := "codeql/python-queries", library := none,
                  version := some "1.0.0", groups := none,
                  dependencies := none, suites := none,
                  default_suite_file := none, extractor := none,
                  extension_targets := none, data_extensions := none,
                  tests := none },
              pack_type := some CodeQLPackType.Queries, pack_lock := none } ∧
      CodeQLPack.try_from fsAllMissing "/base" "codeql/python-queries@1.0.0" =
        .ok { name := "python-queries", «namespace» := "codeql",
              version := some "1.0.0",
              path := "/base/codeql/python-queries/1.0.0",
              pack := none, pack_type := none, pack_lock := none } ∧
      CodeQLPack.try_from fsCacheHitGlob "/base" "codeql/python-queries" =
        .ok { name := "python-queries", «namespace» := "codeql",
              version := some "2.0.0",
              path := "/base/codeql/python-queries/2.0.0",
              pack := some
                { name := "codeql/python-queries", library := none,
                  version := some "2.0.0", groups := none,
                  dependencies := none, suites := none,
                  default_suite_file := none, extractor := none,
                  extension_targets := none, data_extensions := none,
                  tests := none },
              pack_type := some CodeQLPackType.Queries, pack_lock := none } ∧
      CodeQLPack.try_from fsAllMissing "/base" "codeql/python-queries" =
        .ok { name := "python-queries", «namespace» := "codeql",
              version := none,
              path := "/base/codeql/python-queries/**",
              pack := none, pack_type := none, pack_lock := none } := by
  refine ⟨?_, ?_, ?_, ?_⟩
  · exact ((pack_resolution_fallback fsCacheHit "/base"
      "codeql/python-queries@1.0.0" "codeql" "python-queries@1.0.0"
      { name := "codeql/python-queries", library := none,
        version := some "1.0.0", groups := none, dependencies := none,
        suites := none, default_suite_file := none, extractor := none,
        extension_targets := none, data_extensions := none, tests := none }
      (by decide) (by decide)).1 "python-queries" "1.0.0" (by decide)).1
      (by decide) (by decide) (by decide) (by decide) rfl
  · exact ((pack_resolution_fallback fsAllMissing "/base"
      "codeql/python-queries@1.0.0" "codeql" "python-queries@1.0.0" default
      (by decide) (by decide)).1 "python-queries" "1.0.0" (by decide)).2
      (by decide) rfl
  · exact ((pack_resolution_fallback fsCacheHitGlob "/base"
      "codeql/python-queries" "codeql" "python-queries"
      { name := "codeql/python-queries", library := none,
        version := some "2.0.0", groups := none, dependencies := none,
        suites := none, default_suite_file := none, extractor := none,
        extension_targets := none, data_extensions := none, tests := none }
      (by decide) (by decide)).2 (by decide)).1
      "/base/codeql/python-queries/2.0.0" (by decide) (by decide) (by decide)
      (by decide) (by decide) (by decide) rfl
  · exact ((pack_resolution_fallback fsAllMissing "/base"
      "codeql/python-queries" "codeql" "python-queries" default
      (by decide) (by decide)).2 (by decide)).2 (by decide) rfl


/-! ## Loading databases from disk (database.rs:169-261) -/

/-- The configuration-loading tail of `CodeQLDatabaseBuilder::path`
(database.rs:355-370): a readable configuration sets the builder's language
and (when present) source; a failed read leaves the builder unchanged. -/
def CodeQLDatabaseBuilder.pathLoadConfig (fs : FileSystem)
    (b : CodeQLDatabaseBuilder) (config_path : String) :
    CodeQLDatabaseBuilder :=
  match fs.readDbConfig config_path with
  | .error _ => b
  | .ok config =>
    { b with language := CodeQLLanguage.fromString config.primary_language,
             source :=
               match config.source_location with
               | some s => some s
               | none => b.source }

/-- `CodeQLDatabaseBuilder::path` (database.rs:341-372): records the path,
and when it exists loads `codeql-database.yml` from it (directly for a file
path, joined for a directory; any other path kind is left as-is). -/
def CodeQLDatabaseBuilder.pathMethod (fs : FileSystem)
    (b : CodeQLDatabaseBuilder) (p : String) : CodeQLDatabaseBuilder :=
  let b := { b with path := some p }
  if fs.pathExists p then
    match fs.isDir p, fs.isFile p with
    | true, _ =>
      CodeQLDatabaseBuilder.pathLoadConfig fs b (joinPath p "codeql-database.yml")
    | false, true => CodeQLDatabaseBuilder.pathLoadConfig fs b p
    | false, false => b
  else b

/-- `CodeQLDatabaseBuilder::source` (database.rs:387-391). -/
def CodeQLDatabaseBuilder.sourceMethod (b : CodeQLDatabaseBuilder)
    (source : String) : CodeQLDatabaseBuilder :=
  { b with source := some source }

/-- `CodeQLDatabaseBuilder::language` (database.rs:406-409) for a string
argument. -/
def CodeQLDatabaseBuilder.languageMethod (b : CodeQLDatabaseBuilder)
    (language : String) : CodeQLDatabaseBuilder :=
  { b with language := CodeQLLanguage.fromString language }

/-- `CodeQLDatabaseBuilder::config` (database.rs:419-423). -/
def CodeQLDatabaseBuilder.configMethod (b : CodeQLDatabaseBuilder)
    (config : CodeQLDatabaseConfig) : CodeQLDatabaseBuilder :=
  { b with language := CodeQLLanguage.fromString config.primary_language,
           config := some config }

/-- `CodeQLDatabase::load_database_config` (database.rs:213-234): reads the
configuration at the exact file path and builds the database via the builder
chain `init().path(parent).source(...).language(...).config(...).build()`;
a read/parse failure becomes `CodeQLDatabaseError
"Failed to load database configuration"`. -/
def CodeQLDatabase.load_database_config (fs : FileSystem) (base : String)
    (path : String) : Except GHASError CodeQLDatabase :=
  if ¬ fs.pathExists path then
    .error (.CodeQLDatabaseError "Could not find codeql-database.yml")
  else
    match fs.readDbConfig path with
    | .ok config =>
      CodeQLDatabaseBuilder.build
        (CodeQLDatabaseBuilder.configMethod
          (CodeQLDatabaseBuilder.languageMethod
            (CodeQLDatabaseBuilder.sourceMethod
              (CodeQLDatabaseBuilder.pathMethod fs CodeQLDatabaseBuilder.init
                ((pathParent path).getD path))
              (config.source_location.getD ""))
            config.primary_language)
          config)
        base
    | .error _ =>
      .error (.CodeQLDatabaseError "Failed to load database configuration")

/-- `CodeQLDatabase::load` (database.rs:170-199): a missing path fails with
`"Could not find codeql-database.yml"`; a file path whose final component is
`codeql-database.yml` is loaded directly; otherwise the directory is walked
for a `codeql-database.yml` (the walk result, or `""` when nothing was
found, is then loaded — and `""` never exists, reproducing the same
error). -/
def CodeQLDatabase.load (fs : FileSystem) (base : String) (path : String) :
    Except GHASError CodeQLDatabase :=
  if ¬ fs.pathExists path then
    .error (.CodeQLDatabaseError "Could not find codeql-database.yml")
  else if fs.isFile path ∧ pathFileName path = some "codeql-database.yml" then
    CodeQLDatabase.load_database_config fs base path
  else
    match fs.walkFind path with
    | .error e => .error e
    | .ok dbroot => CodeQLDatabase.load_database_config fs base dbroot

/-- The public conversions `impl From<String> / From<&str> / From<PathBuf> /
From<&Path> for CodeQLDatabase` (database.rs:237-261): all four call
`CodeQLDatabase::load(path)` followed by
`.expect("Failed to load CodeQL Database")`.  The `none` result models the
panic of `expect` on a load error. -/
def CodeQLDatabase.fromPath (fs : FileSystem) (base : String)
    (path : String) : Option CodeQLDatabase :=
  match CodeQLDatabase.load fs base path with
  | .ok db => some db
  | .error _ => none

/-! ## Claim C10: the `From` conversions panic on load failure -/

/-- C10: whenever `CodeQLDatabase::load` fails, the public `From`
conversions panic through `expect("Failed to load CodeQL Database")`
(modelled as `none`) instead of surfacing the typed error. -/
theorem database_from_panics_on_load_error (fs : FileSystem)
    (base p : String) (e : GHASError)
    (h : CodeQLDatabase.load fs base p = .error e) :
    CodeQLDatabase.fromPath fs base p = none := by
  unfold CodeQLDatabase.fromPath
  rw [h]

/-- C10 witness: the panic branch is reachable — on a filesystem where the
path does not exist, `load` fails with `"Could not find
codeql-database.yml"` and the conversion panics (`none`). -/
theorem database_from_panics_on_load_error_witness :
    CodeQLDatabase.load fsAllMissing "/base" "/missing/db" =
        .error (.CodeQLDatabaseError "Could not find codeql-database.yml") ∧
      CodeQLDatabase.fromPath fsAllMissing "/base" "/missing/db" = none :=
  ⟨rfl, database_from_panics_on_load_error fsAllMissing "/base" "/missing/db"
    (.CodeQLDatabaseError "Could not find codeql-database.yml") rfl⟩

end Ghastoolkit
